import Mathlib

/-!
Verification development for `sync_imap_email.py`, a single-file IMAP
mailbox-migration engine.  The Python source is shallowly embedded below:
pure fragments become Lean functions, the stateful migration loop becomes
explicit state passing over an abstract destination-mailbox state, and
fallible code returns `Option`/`Except`.  Line numbers in comments refer to
`src/sync_imap_email.py`.
-/

namespace SyncImap

/-! ## Generic string helpers (executable stand-ins for Python operations) -/

/-- Boolean list-prefix test (Python `str.startswith` on char lists). -/
def prefB : List Char → List Char → Bool
  | [], _ => true
  | _ :: _, [] => false
  | a :: as, b :: bs => a == b && prefB as bs

/-- Boolean substring test on char lists (Python `in` on `str`/`bytes`). -/
def infB (needle : List Char) : List Char → Bool
  | [] => prefB needle []
  | c :: rest => prefB needle (c :: rest) || infB needle rest

/-- Substring test on strings: `strIn n h` is Python `n in h`. -/
def strIn (needle hay : String) : Bool :=
  infB needle.data hay.data

/-- Fuel-driven worker for `replaceS` (Python `str.replace`): replace
every non-overlapping occurrence of `pat`, left to right.  The fuel is
the length of the subject, which bounds the recursion depth. -/
def replGo (pat rep : List Char) : Nat → List Char → List Char
  | 0, s => s
  | _, [] => []
  | fuel + 1, c :: rest =>
    if prefB pat (c :: rest) then
      rep ++ replGo pat rep fuel (List.drop (pat.length - 1) rest)
    else
      c :: replGo pat rep fuel rest

/-- Python `s.replace(pat, rep)` for non-empty `pat`. -/
def replaceS (s pat rep : String) : String :=
  String.mk (replGo pat.data rep.data s.data.length s.data)

/-- Fuel-driven worker for `splitOnS` (Python `str.split(sep)`). -/
def splitGo (sep : List Char) : Nat → List Char → List Char → List (List Char)
  | 0, acc, s => [acc.reverse ++ s]
  | _, acc, [] => [acc.reverse]
  | fuel + 1, acc, c :: rest =>
    if prefB sep (c :: rest) then
      acc.reverse :: splitGo sep fuel [] (List.drop (sep.length - 1) rest)
    else
      splitGo sep fuel (c :: acc) rest

/-- Python `s.split(sep)` for non-empty `sep`. -/
def splitOnS (s sep : String) : List String :=
  (splitGo sep.data s.data.length [] s.data).map String.mk

/-- Whitespace recognised by Python `str.strip()`. -/
def isSpaceC (c : Char) : Bool :=
  c == ' ' || c == '\t' || c == '\n' || c == '\r'

/-- Python `s.strip()`. -/
def trimS (s : String) : String :=
  String.mk (((s.data.dropWhile isSpaceC).reverse.dropWhile isSpaceC).reverse)

/-- Python `s.strip('"')`. -/
def stripQuotes (s : String) : String :=
  String.mk (((s.data.dropWhile (· == '"')).reverse.dropWhile (· == '"')).reverse)

/-- Python `s.upper()`. -/
def upperS (s : String) : String :=
  String.mk (s.data.map Char.toUpper)

/-! ## Claim C2 / mailbox skip filter

Source line 808:
    `if re.search(r'\\[Noselect|All|Flagged]', src_mailbox): continue`
Note `[Noselect|All|Flagged]` is a regex *character class*: the pattern
matches a literal backslash followed by any single character drawn from
the class below, not the three whole attribute words. -/

/-- The characters of the regex character class `[Noselect|All|Flagged]`
(the distinct characters of the three words plus `|`). -/
def noCopyClass : List Char :=
  ['N', 'o', 's', 'e', 'l', 'c', 't', '|', 'A', 'F', 'a', 'g', 'd']

/-- Scan for a backslash followed by a character of the class; this is
exactly what `re.search(r'\\[Noselect|All|Flagged]', line)` tests. -/
def skipScan : List Char → Bool
  | '\\' :: c :: rest => c ∈ noCopyClass || skipScan (c :: rest)
  | _ :: rest => skipScan rest
  | [] => false

/-- The engine skips a source `LIST` entry iff this returns `true`
(source line 808). -/
def skipMailbox (line : String) : Bool :=
  skipScan line.data

/-- Modelled from the spec's words (for comparison with `skipMailbox`):
skip exactly when the entry's attribute set intersects
`{\Noselect, \All, \Flagged}`. -/
def specSkipAttrs (attrs : List String) : Bool :=
  attrs.any (fun a => a == "\\Noselect" || a == "\\All" || a == "\\Flagged")

/-! ## Claim C8 / process exit codes

Exit sites in the source:
  * normal completion: `start` returns, the script ends, Python exits 0;
  * reconnection attempts exhausted: `sys.exit(1)` (line 420);
  * user interrupt: `except KeyboardInterrupt: ... sys.exit()` (lines
    245-247) — `sys.exit()` with no argument exits with status 0. -/

inductive RunOutcome where
  | normal
  | reconnExhausted
  | interrupted
deriving DecidableEq

/-- Process exit code for each run outcome, read off the source's exit
sites listed above. -/
def exitCode : RunOutcome → Nat
  | .normal => 0
  | .reconnExhausted => 1
  | .interrupted => 0

/-! ## Claim C5 / reconnect retry loop

Source `_reconnect` (lines 397-420): for each attempt `1..attempts`,
re-authenticate the `src` session then the `dst` session; if either
fails the inner loop breaks (`error_reconn = True`) and the *next*
attempt begins; if both succeed the method returns; after the last
failed attempt the process exits via `sys.exit(1)`.

`authOk k = (srcOk, dstOk)` is the oracle giving the outcome of
`_auth_server` for each session at attempt `k` (1-based).  The result is
`some k` when attempt `k` re-authenticated both sessions (the `return`
at line 418), `none` when all attempts failed (`sys.exit(1)`). -/

def reconnectFrom (authOk : Nat → Bool × Bool) : Nat → Nat → Option Nat
  | 0, _ => none
  | rem + 1, k =>
    if (authOk k).1 && (authOk k).2 then some k
    else reconnectFrom authOk rem (k + 1)

/-- The `_reconnect` retry loop. -/
def reconnect (attempts : Nat) (authOk : Nat → Bool × Bool) : Option Nat :=
  reconnectFrom authOk attempts 1

/-- Auth oracle in which attempt 1 fails source re-authentication and
attempt 2 succeeds for both sessions. -/
def authFailThenOk (k : Nat) : Bool × Bool :=
  if k = 1 then (false, true) else (true, true)

/-! ## Claims C7 and C10 / destination folder-name computation

Source `_find_foldername` (lines 466-497) together with the bare-name
extraction `_migrate` performs before calling it (line 811). -/

/-- The regex character class `[\\|\.]` used on lines 473 and 477. -/
def sepClass (c : Char) : Bool :=
  c == '\\' || c == '|' || c == '.'

/-- The special-use labels of line 472. -/
def labels : List String :=
  ["Sent", "Drafts", "Junk", "Trash", "Archive"]

/-- First label (in alternation order) that is a prefix of `cs`. -/
def startsWithLabel (cs : List Char) : Option String :=
  labels.find? (fun l => prefB l.data cs)

/-- Leftmost match of `re.search(r'[\\|\.]+(Sent|Drafts|Junk|Trash|Archive)', s)`
(line 473), returning the captured label.  A match is a maximal run of
class characters followed immediately by a label; since no label starts
with a class character, backtracking inside the run cannot succeed
earlier, so scanning each start position and skipping the run is exact. -/
def findLabel : List Char → Option String
  | [] => none
  | c :: rest =>
    if sepClass c then
      match startsWithLabel (rest.dropWhile sepClass) with
      | some l => some l
      | none => findLabel rest
    else findLabel rest

/-- Test of `re.search(fr'[\\|\.]{lbl}', s)` (line 477): some class
character immediately followed by the label. -/
def hasSepLabel (lbl : String) : List Char → Bool
  | [] => false
  | c :: rest => (sepClass c && prefB lbl.data rest) || hasSepLabel lbl rest

/-- Per-server mailbox information collected by `_get_mailboxes_info`:
the decoded `LIST` lines, the hierarchy separator, the detected
`INBOX.` folder prefix (or `none`), and whether the server host name
contains `gmail.com` (line 494). -/
structure MailInfo where
  allMailboxes : List String
  sep : String
  pfx : Option String
  hostGmail : Bool

/-- Bare mailbox name of a `LIST` line: split on `'"' + sep + '"'`, take
the last piece, strip surrounding whitespace (lines 478-479 and 811). -/
def bareName (sep line : String) : String :=
  trimS ((splitOnS line ("\"" ++ sep ++ "\"")).getLast?.getD "")

/-- Post-adjustments of lines 492-496: strip `INBOX/` when the
destination separator is `/`; strip `[Gmail]<sep>` when the name
mentions `[Gmail]` but the destination host is not Gmail. -/
def postAdjust (dst : MailInfo) (f : String) : String :=
  let f1 := if dst.sep = "/" then replaceS f "INBOX/" "" else f
  if !dst.hostGmail && strIn "[Gmail]" f1 then
    replaceS f1 ("[Gmail]" ++ dst.sep) ""
  else f1

/-- `_find_foldername` (lines 466-497).  Returns `none` exactly when the
Python code would raise `UnboundLocalError`: a special-use label was
found in the source name but no destination `LIST` entry matches it, so
`foldername` is never assigned before it is used. -/
def findFoldername (src dst : MailInfo) (srcMailbox : String) : Option String :=
  match findLabel srcMailbox.data with
  | some lbl =>
    match (dst.allMailboxes.filter (fun m => hasSepLabel lbl m.data)).getLast? with
    | none => none
    | some dm => some (postAdjust dst (bareName dst.sep dm))
  | none =>
    let f1 :=
      if dst.pfx ≠ src.pfx ∧ upperS srcMailbox ≠ "INBOX" then
        match src.pfx with
        | some p => replaceS srcMailbox p ""
        | none => "\"INBOX." ++ stripQuotes srcMailbox ++ "\""
      else srcMailbox
    let f2 := if src.sep ≠ dst.sep then replaceS f1 src.sep dst.sep else f1
    some (postAdjust dst f2)

/-- A `.`-separated, `INBOX.`-prefixed source server (Courier/Dovecot
style), as in the spec's namespace-rewrite scenario. -/
def srcCourier : MailInfo where
  allMailboxes :=
    ["(\\HasNoChildren) \".\" INBOX",
     "(\\HasNoChildren) \".\" INBOX.Sent",
     "(\\HasNoChildren) \".\" INBOX.Work.2023"]
  sep := "."
  pfx := some "INBOX."
  hostGmail := false

/-- A Gmail destination: `/` separator, no prefix, special-use folder
`[Gmail]/Sent Mail`. -/
def dstGmail : MailInfo where
  allMailboxes :=
    ["(\\HasNoChildren) \"/\" \"INBOX\"",
     "(\\HasChildren \\Noselect) \"/\" \"[Gmail]\"",
     "(\\All \\HasNoChildren) \"/\" \"[Gmail]/All Mail\"",
     "(\\HasNoChildren \\Drafts) \"/\" \"[Gmail]/Drafts\"",
     "(\\HasNoChildren \\Sent) \"/\" \"[Gmail]/Sent Mail\"",
     "(\\HasNoChildren \\Junk) \"/\" \"[Gmail]/Spam\"",
     "(\\HasNoChildren \\Trash) \"/\" \"[Gmail]/Trash\""]
  sep := "/"
  pfx := none
  hostGmail := true

/-- A destination server with no folder matching the `Sent` label. -/
def dstNoSent : MailInfo where
  allMailboxes := ["(\\HasNoChildren) \".\" INBOX"]
  sep := "."
  pfx := some "INBOX."
  hostGmail := false

/-! ## Claims C1, C3, C4, C9 / the migration state machine

The message loop of `_migrate` (lines 801-853) is embedded as an explicit
state machine over an abstract destination-mailbox state.  Network
transport is assumed reliable (reconnection is modelled separately for
C5); server search semantics are abstracted to equality on the extracted
`Message-ID` / identity fields; the destination enforces a message-count
quota `cap`, answering `APPEND` with a `NO` line containing
`[OVERQUOTA]` once the quota is reached. -/

/-- A logical message.  `msgId` is the id the Message-ID extraction of
`_message_exists` (line 632) yields — `none` when the header lacks a
Message-ID (so the regex finds nothing); `flags` is the uppercase flag
list `_fetch_flags` (line 757) parses from the `FETCH (FLAGS)` reply. -/
structure Msg where
  msgId : Option String
  mfrom : String
  mto : String
  senton : String
  flags : List String
  body : String
deriving DecidableEq

abbrev Folder := List Msg

/-- Destination server state: association list folder-name → contents. -/
abbrev DstState := List (String × Folder)

def getFolder : DstState → String → Folder
  | [], _ => []
  | (g, fol) :: rest, f => if g == f then fol else getFolder rest f

def putFolder : DstState → String → Folder → DstState
  | [], f, fol => [(f, fol)]
  | (g, h) :: rest, f, fol =>
    if g == f then (g, fol) :: rest else (g, h) :: putFolder rest f fol

/-- Total number of messages stored at the destination. -/
def totalMsgs (s : DstState) : Nat :=
  (s.map (fun p => p.2.length)).sum

/-- `_message_exists` (lines 624-674): when the header has a Message-ID,
`SEARCH HEADER Message-ID "<id>"`; otherwise `SEARCH FROM .. TO ..
SENTON ..` with the identity triple. -/
def messageExists (fol : Folder) (h : Msg) : Bool :=
  match h.msgId with
  | some id => fol.any (fun m => m.msgId == some id)
  | none =>
    fol.any (fun m => m.mfrom == h.mfrom && m.mto == h.mto && m.senton == h.senton)

/-- Outcome of the raw IMAP `APPEND` as seen by `_append_message`:
`ok` — tagged OK; `no lines` — tagged NO returned by `imaplib` with the
response lines; `bad` — `imaplib` raised `IMAP4.error` (as it does for a
tagged BAD), so `data` is the exception object, not a line list. -/
inductive AppendResp where
  | ok
  | no (lines : List String)
  | bad
deriving DecidableEq

/-- The status rewrite of `_append_message` lines 725-727 on a NO
response: `'OVERQUOTA'` when some response line contains `[OVERQUOTA]`,
plain `'NO'` otherwise. -/
def noStatus (lines : List String) : String :=
  if lines.any (fun l => strIn "[OVERQUOTA]" l) then "OVERQUOTA" else "NO"

/-- `_append_message` (lines 704-731) after the append completed.  On a
tagged NO the overquota scan runs over the response lines.  On the
exception path (`bad`) line 723 sets `data` to the exception object and
line 726 then evaluates `any(b'[OVERQUOTA]' in msg for msg in data)`,
which raises an unhandled `TypeError` (an exception is not iterable) —
embedded as `Except.error ()`. -/
def appendMessageStatus : AppendResp → Except Unit String
  | .ok => .ok "OK"
  | .no lines => .ok (noStatus lines)
  | .bad => .error ()

/-- Overquota response line used by the modelled destination server. -/
def overquotaLine : String := "NO [OVERQUOTA] Quota exceeded"

/-- Destination server behaviour on `APPEND`: accept below quota,
otherwise a tagged NO carrying `[OVERQUOTA]`. -/
def appendResp (cap : Nat) (s : DstState) : AppendResp :=
  if totalMsgs s < cap then .ok else .no [overquotaLine]

/-- Status string `_append_message` returns for the modelled server
(which never answers BAD, so the crash branch is unreachable here). -/
def appendStatusRun (cap : Nat) (s : DstState) : String :=
  match appendResp cap s with
  | .ok => "OK"
  | .no ls => noStatus ls
  | .bad => "CRASH"

/-- The flag `_fetch_flags` removes from the fetched list (line 759). -/
def recentFlag : String := "\\RECENT"

/-- Effect of `STORE <uid> +FLAGS`: add the given flags to the ones
already present. -/
def addFlags (cur new : List String) : List String :=
  cur ++ new.filter (fun x => !cur.contains x)

/-- The per-message mutation `_store_flags` applies. -/
def storeFn (fl : List String) (m : Msg) : Msg :=
  { m with flags := addFlags m.flags fl }

/-- Apply `g` to the last element of a folder (if any). -/
def updateLast (g : Msg → Msg) : Folder → Folder
  | [] => []
  | m :: rest =>
    match rest with
    | [] => [g m]
    | m2 :: rest2 => m :: updateLast g (m2 :: rest2)

/-- `_store_flags` (lines 762-785): `SEARCH ALL` on the destination
folder and `STORE` on the *last* listed message (`data[0].split()[-1]`),
adding the source flags. -/
def storeLast (s : DstState) (f : String) (fl : List String) : DstState :=
  putFolder s f (updateLast (storeFn fl) (getFolder s f))

/-- Observable events of a run. -/
inductive Ev where
  | probe (folder : String) (found : Bool)
  | append (folder : String) (status : String)
  | store (folder : String) (flags : List String)
deriving DecidableEq

/-- One iteration of the message loop (lines 824-849): probe for the
message at the destination; skip when found; otherwise append, and on
`'OK'` store the source flags (minus `\Recent`, line 759) when they are
non-empty; on `'OVERQUOTA'` raise the break flag.  `stOk` tells whether
the best-effort `STORE` of `_store_flags` succeeds (its failure is only
logged; line 847 ignores the outcome).  This version is the
specialization in which the destination `SEARCH` of `_message_exists`
always completes with status `'OK'`; `migrateMessageP` below makes the
probe-failure path explicit, and coincides with this one when every
probe succeeds (`migrateMessageP_true`). -/
def migrateMessage (cap : Nat) (stOk : Bool) (f : String) (s : DstState) (m : Msg) :
    DstState × List Ev × Bool :=
  if messageExists (getFolder s f) m then
    (s, [.probe f true], false)
  else
    let st := appendStatusRun cap s
    if st = "OK" then
      let s1 := putFolder s f (getFolder s f ++ [m])
      let fl := m.flags.erase recentFlag
      if fl.isEmpty then
        (s1, [.probe f false, .append f "OK"], false)
      else if stOk then
        (storeLast s1 f fl, [.probe f false, .append f "OK", .store f fl], false)
      else
        (s1, [.probe f false, .append f "OK", .store f fl], false)
    else if st = "OVERQUOTA" then
      (s, [.probe f false, .append f "OVERQUOTA"], true)
    else
      (s, [.probe f false, .append f st], false)

/-- The inner message loop of `_migrate` (lines 824-849), with the
`break_all_loop` check at the top of each iteration. -/
def migrateMsgs (cap : Nat) (stOk : Bool) (f : String) :
    List Msg → DstState → DstState × List Ev × Bool
  | [], s => (s, [], false)
  | m :: rest, s =>
    let r := migrateMessage cap stOk f s m
    if r.2.2 then (r.1, r.2.1, true)
    else
      let r2 := migrateMsgs cap stOk f rest r.1
      (r2.1, r.2.1 ++ r2.2.1, r2.2.2)

/-- Static per-pair configuration: source separator, the (deterministic)
source-to-destination folder mapping `_find_foldername` computes,
destination quota, and the flag-store success oracle. -/
structure RunCfg where
  srcSep : String
  mapf : String → String
  cap : Nat
  stOk : Bool

/-- The outer mailbox loop of `_migrate` (lines 801-853): skip entries
matching the no-copy filter (line 808), skip empty folders
(`_get_allmessages` returns nothing), and stop everything once the break
flag is raised. -/
def migrateBoxes (cfg : RunCfg) :
    List (String × List Msg) → DstState → DstState × List Ev × Bool
  | [], s => (s, [], false)
  | (line, msgs) :: rest, s =>
    if skipMailbox line then migrateBoxes cfg rest s
    else if msgs.isEmpty then migrateBoxes cfg rest s
    else
      let f := cfg.mapf (bareName cfg.srcSep line)
      let r := migrateMsgs cfg.cap cfg.stOk f msgs s
      if r.2.2 then (r.1, r.2.1, true)
      else
        let r2 := migrateBoxes cfg rest r.1
        (r2.1, r.2.1 ++ r2.2.1, r2.2.2)

/-- One configured account pair: configuration, source `LIST` entries
with their messages, initial destination state. -/
structure PairInput where
  cfg : RunCfg
  src : List (String × List Msg)
  dst : DstState

/-- The engine loop of `start` (lines 952-953): `_migrate` runs for
every configured pair, unconditionally in configuration order. -/
def runAll (pairs : List PairInput) : List (DstState × List Ev × Bool) :=
  pairs.map (fun p => migrateBoxes p.cfg p.src p.dst)

/-! ### The probe-failure path of `_message_exists` (claim C1)

`_message_exists` returns `True` only when the destination `SEARCH`
completed with status `'OK'` *and* returned a non-empty result.  Both an
empty result and a *failed* probe — a tagged NO, or an `IMAP4.error`
raised e.g. by a tagged BAD (lines 646-651 and 668-670 set `status` to
`'NO'` and fall through to `return False`) — make it return `False`,
after which `_migrate` fetches the body and issues the `APPEND`.
`probeOk m` tells whether the destination `SEARCH` for `m`'s criteria
succeeds; it is a function of the message because such failures are
typically deterministic in the message's header (e.g. an extracted
Message-ID whose text breaks the quoted `SEARCH` syntax fails the same
way on every run). -/

/-- The return value of `_message_exists` (lines 624-674) with the
probe-failure path included: `True` iff the destination `SEARCH`
succeeded and found a match. -/
def messageExistsChecked (probeOk : Msg → Bool) (fol : Folder) (h : Msg) : Bool :=
  probeOk h && messageExists fol h

/-- `migrateMessage` with the probe-failure path of `_message_exists`
made explicit: identical except that the skip decision is
`messageExistsChecked`. -/
def migrateMessageP (probeOk : Msg → Bool) (cap : Nat) (stOk : Bool) (f : String)
    (s : DstState) (m : Msg) : DstState × List Ev × Bool :=
  if messageExistsChecked probeOk (getFolder s f) m then
    (s, [.probe f true], false)
  else
    let st := appendStatusRun cap s
    if st = "OK" then
      let s1 := putFolder s f (getFolder s f ++ [m])
      let fl := m.flags.erase recentFlag
      if fl.isEmpty then
        (s1, [.probe f false, .append f "OK"], false)
      else if stOk then
        (storeLast s1 f fl, [.probe f false, .append f "OK", .store f fl], false)
      else
        (s1, [.probe f false, .append f "OK", .store f fl], false)
    else if st = "OVERQUOTA" then
      (s, [.probe f false, .append f "OVERQUOTA"], true)
    else
      (s, [.probe f false, .append f st], false)

/-- The inner message loop of `_migrate` over `migrateMessageP`. -/
def migrateMsgsP (probeOk : Msg → Bool) (cap : Nat) (stOk : Bool) (f : String) :
    List Msg → DstState → DstState × List Ev × Bool
  | [], s => (s, [], false)
  | m :: rest, s =>
    let r := migrateMessageP probeOk cap stOk f s m
    if r.2.2 then (r.1, r.2.1, true)
    else
      let r2 := migrateMsgsP probeOk cap stOk f rest r.1
      (r2.1, r.2.1 ++ r2.2.1, r2.2.2)

/-- The outer mailbox loop of `_migrate` over `migrateMsgsP`. -/
def migrateBoxesP (probeOk : Msg → Bool) (cfg : RunCfg) :
    List (String × List Msg) → DstState → DstState × List Ev × Bool
  | [], s => (s, [], false)
  | (line, msgs) :: rest, s =>
    if skipMailbox line then migrateBoxesP probeOk cfg rest s
    else if msgs.isEmpty then migrateBoxesP probeOk cfg rest s
    else
      let f := cfg.mapf (bareName cfg.srcSep line)
      let r := migrateMsgsP probeOk cfg.cap cfg.stOk f msgs s
      if r.2.2 then (r.1, r.2.1, true)
      else
        let r2 := migrateBoxesP probeOk cfg rest r.1
        (r2.1, r.2.1 ++ r2.2.1, r2.2.2)

/-- No event of the trace is an `APPEND` answered `OK`. -/
def noOKAppend (t : List Ev) : Prop :=
  ∀ g, Ev.append g "OK" ∉ t

/-- No event of the trace is an `APPEND` answered `OVERQUOTA`. -/
def noOQAppend (t : List Ev) : Prop :=
  ∀ g, Ev.append g "OVERQUOTA" ∉ t

/-! ## Claim C6 / session teardown paths

`_migrate` (lines 794-855): the only exits are (a) `_connect` failed —
`_connect` itself calls `_disconnect` before returning `False`
(line 391); (b) `_get_mailboxes_info` failed — the bare `return` on
line 799 runs with *no* disconnect; (c) the loops finished (normally or
through the overquota break) — `_disconnect` runs on line 855;
(d) `KeyboardInterrupt` — caught in `__init__` (lines 245-247), which
logs and calls `sys.exit()` without touching the sessions. -/

/-- Whether the pair's exit path executes `_disconnect`, per the exit
paths listed above. -/
def migrateDisconnects (connectOk listOk interrupted : Bool) : Bool :=
  if interrupted then false
  else if !connectOk then true
  else if !listOk then false
  else true

/-- Runtime view of one IMAP session inside `_disconnect`: whether
`mail[key].get('imap')` is set, and the `imaplib` state string. -/
structure SessionSt where
  conn : Bool
  state : String

/-- The commands `_disconnect` (lines 422-433) issues for one session:
`CLOSE` only from the `SELECTED` state, then `LOGOUT`; nothing when the
session was never established. -/
def disconnectOps1 (s : SessionSt) : List String :=
  if s.conn then (if s.state = "SELECTED" then ["CLOSE"] else []) ++ ["LOGOUT"]
  else []

/-! ## Concrete inputs used by witnesses and counterexamples -/

/-- A sample message carrying a Message-ID and a `\Seen` flag. -/
def m0 : Msg where
  msgId := some "a@x"
  mfrom := "a@x"
  mto := "b@y"
  senton := "01-Jan-2024"
  flags := ["\\SEEN"]
  body := "Hello"

/-- A pair configuration whose destination has no quota room at all. -/
def cfg0 : RunCfg where
  srcSep := "."
  mapf := fun _ => "INBOX"
  cap := 0
  stOk := true

/-- A pair configuration with ample destination quota. -/
def cfg1 : RunCfg where
  srcSep := "."
  mapf := fun _ => "INBOX"
  cap := 10
  stOk := true

/-- A one-folder, one-message source listing. -/
def src0 : List (String × List Msg) :=
  [("(\\HasNoChildren) \".\" INBOX", [m0])]

/-- Probe oracle: every destination `SEARCH` succeeds. -/
def pOkTrue : Msg → Bool := fun _ => true

/-- Probe oracle: every destination `SEARCH` fails (tagged NO or
`IMAP4.error`), so `_message_exists` always returns `False`. -/
def pOkFalse : Msg → Bool := fun _ => false

/-- A destination that already holds a copy of `m0` in `INBOX` (as after
a successful earlier migration). -/
def dst1 : DstState := [("INBOX", [m0])]

/-! ### Basic lemmas about the destination state -/

theorem getFolder_putFolder_same (s : DstState) (f : String) (fol : Folder) :
    getFolder (putFolder s f fol) f = fol := by
  induction s with
  | nil => simp [putFolder, getFolder]
  | cons p rest ih =>
    obtain ⟨g, h⟩ := p
    by_cases hg : g = f
    · simp [putFolder, getFolder, hg]
    · simp [putFolder, getFolder, hg, ih]

theorem getFolder_putFolder_other (s : DstState) (f g : String) (fol : Folder)
    (hne : g ≠ f) : getFolder (putFolder s f fol) g = getFolder s g := by
  induction s with
  | nil => simp [putFolder, getFolder, hne.symm]
  | cons p rest ih =>
    obtain ⟨g', fol'⟩ := p
    by_cases hg : g' = f
    · subst hg
      simp [putFolder, getFolder, hne.symm]
    · by_cases hg2 : g' = g
      · subst hg2
        simp [putFolder, getFolder, hg]
      · simp [putFolder, getFolder, hg, hg2, ih]

@[simp] theorem totalMsgs_nil : totalMsgs [] = 0 := rfl

@[simp] theorem totalMsgs_cons (g : String) (fol : Folder) (rest : DstState) :
    totalMsgs ((g, fol) :: rest) = fol.length + totalMsgs rest := by
  simp [totalMsgs]

theorem totalMsgs_putFolder (s : DstState) (f : String) (fol : Folder) :
    totalMsgs (putFolder s f fol) + (getFolder s f).length
      = totalMsgs s + fol.length := by
  induction s with
  | nil => simp [putFolder, getFolder]
  | cons p rest ih =>
    obtain ⟨g, fol'⟩ := p
    by_cases hg : g = f
    · simp [putFolder, getFolder, hg]
      omega
    · simp [putFolder, getFolder, hg]
      omega

theorem updateLast_concat (g : Msg → Msg) (xs : Folder) (m : Msg) :
    updateLast g (xs ++ [m]) = xs ++ [g m] := by
  induction xs with
  | nil => simp [updateLast]
  | cons x xs ih =>
    cases xs with
    | nil => simp [updateLast] at *
    | cons y ys => simp [updateLast] at ih ⊢; exact ih

theorem length_updateLast (g : Msg → Msg) (fol : Folder) :
    (updateLast g fol).length = fol.length := by
  induction fol with
  | nil => simp [updateLast]
  | cons m rest ih =>
    cases rest with
    | nil => simp [updateLast]
    | cons y ys => simp [updateLast] at ih ⊢; omega

theorem getFolder_storeLast_same (s : DstState) (f : String) (fl : List String) :
    getFolder (storeLast s f fl) f = updateLast (storeFn fl) (getFolder s f) :=
  getFolder_putFolder_same ..

theorem getFolder_storeLast_other (s : DstState) (f g : String) (fl : List String)
    (hne : g ≠ f) : getFolder (storeLast s f fl) g = getFolder s g :=
  getFolder_putFolder_other _ _ _ _ hne

theorem totalMsgs_storeLast (s : DstState) (f : String) (fl : List String) :
    totalMsgs (storeLast s f fl) = totalMsgs s := by
  have h := totalMsgs_putFolder s f (updateLast (storeFn fl) (getFolder s f))
  rw [length_updateLast] at h
  unfold storeLast
  omega

theorem totalMsgs_append_new (s : DstState) (f : String) (m : Msg) :
    totalMsgs (putFolder s f (getFolder s f ++ [m])) = totalMsgs s + 1 := by
  have h := totalMsgs_putFolder s f (getFolder s f ++ [m])
  simp at h
  omega

@[simp] theorem storeFn_msgId (fl : List String) (m : Msg) :
    (storeFn fl m).msgId = m.msgId := rfl

@[simp] theorem storeFn_mfrom (fl : List String) (m : Msg) :
    (storeFn fl m).mfrom = m.mfrom := rfl

@[simp] theorem storeFn_mto (fl : List String) (m : Msg) :
    (storeFn fl m).mto = m.mto := rfl

@[simp] theorem storeFn_senton (fl : List String) (m : Msg) :
    (storeFn fl m).senton = m.senton := rfl

/-! ### Lemmas about the existence probe -/

theorem messageExists_append_right (fol : Folder) (x m : Msg)
    (h : messageExists fol x = true) : messageExists (fol ++ [m]) x = true := by
  cases hid : x.msgId <;> simp only [messageExists, hid] at h ⊢ <;>
    simp [List.any_append, h]

theorem messageExists_self (fol : Folder) (m : Msg) :
    messageExists (fol ++ [m]) m = true := by
  cases hid : m.msgId <;> simp [messageExists, hid, List.any_append]

theorem messageExists_updateLast (fl : List String) (fol : Folder) (x : Msg) :
    messageExists (updateLast (storeFn fl) fol) x = messageExists fol x := by
  cases hid : x.msgId <;> simp only [messageExists, hid] <;>
  · induction fol with
    | nil => simp [updateLast]
    | cons m rest ih =>
      cases rest with
      | nil => simp [updateLast]
      | cons y ys => simp [updateLast] at ih ⊢; rw [ih]

theorem messageExists_single_storeFn (fl : List String) (m : Msg) :
    messageExists [storeFn fl m] m = true := by
  cases hid : m.msgId <;> simp [messageExists, hid]

/-! ### Step lemmas for one message iteration -/

theorem noStatus_overquotaLine : noStatus [overquotaLine] = "OVERQUOTA" := by decide

theorem appendStatusRun_eq (cap : Nat) (s : DstState) :
    appendStatusRun cap s = if totalMsgs s < cap then "OK" else "OVERQUOTA" := by
  by_cases h : totalMsgs s < cap
  · simp [appendStatusRun, appendResp, h]
  · simp [appendStatusRun, appendResp, h, noStatus_overquotaLine]

theorem migrateMessage_skip (cap : Nat) (stOk : Bool) (f : String) (s : DstState)
    (m : Msg) (hex : messageExists (getFolder s f) m = true) :
    migrateMessage cap stOk f s m = (s, [Ev.probe f true], false) := by
  simp [migrateMessage, hex]

theorem migrateMessage_oq (cap : Nat) (stOk : Bool) (f : String) (s : DstState)
    (m : Msg) (hex : messageExists (getFolder s f) m = false)
    (hq : ¬ totalMsgs s < cap) :
    migrateMessage cap stOk f s m
      = (s, [Ev.probe f false, Ev.append f "OVERQUOTA"], true) := by
  have hne : ("OVERQUOTA" : String) ≠ "OK" := by decide
  simp [migrateMessage, hex, appendStatusRun_eq, hq, hne]

theorem migrateMessage_append_props (cap : Nat) (stOk : Bool) (f : String)
    (s : DstState) (m : Msg) (hex : messageExists (getFolder s f) m = false)
    (hq : totalMsgs s < cap) :
    (migrateMessage cap stOk f s m).2.2 = false
    ∧ messageExists (getFolder (migrateMessage cap stOk f s m).1 f) m = true
    ∧ totalMsgs (migrateMessage cap stOk f s m).1 = totalMsgs s + 1 := by
  have hOK : appendStatusRun cap s = "OK" := by rw [appendStatusRun_eq]; simp [hq]
  by_cases hfl : (m.flags.erase recentFlag).isEmpty = true <;>
    by_cases hst : stOk = true <;>
      simp [migrateMessage, hex, hOK, hfl, hst, getFolder_storeLast_same,
        getFolder_putFolder_same, messageExists_updateLast, messageExists_self,
        totalMsgs_storeLast, totalMsgs_append_new]

theorem migrateMessage_mono (cap : Nat) (stOk : Bool) (f : String) (s : DstState)
    (m : Msg) (g : String) (x : Msg)
    (h : messageExists (getFolder s g) x = true) :
    messageExists (getFolder (migrateMessage cap stOk f s m).1 g) x = true := by
  cases hex : messageExists (getFolder s f) m
  · by_cases hq : totalMsgs s < cap
    · have hOK : appendStatusRun cap s = "OK" := by rw [appendStatusRun_eq]; simp [hq]
      by_cases hgf : g = f
      · subst hgf
        by_cases hfl : (m.flags.erase recentFlag).isEmpty = true <;>
          by_cases hst : stOk = true <;>
            simp [migrateMessage, hex, hOK, hfl, hst, getFolder_storeLast_same,
              getFolder_putFolder_same, messageExists_updateLast,
              messageExists_append_right _ _ _ h]
      · by_cases hfl : (m.flags.erase recentFlag).isEmpty = true <;>
          by_cases hst : stOk = true <;>
            simp [migrateMessage, hex, hOK, hfl, hst, storeLast,
              getFolder_putFolder_other _ _ _ _ hgf, h]
    · rw [migrateMessage_oq cap stOk f s m hex hq]
      exact h
  · rw [migrateMessage_skip cap stOk f s m hex]
    exact h

theorem migrateMessage_total_le (cap : Nat) (stOk : Bool) (f : String)
    (s : DstState) (m : Msg) :
    totalMsgs s ≤ totalMsgs (migrateMessage cap stOk f s m).1 := by
  cases hex : messageExists (getFolder s f) m
  · by_cases hq : totalMsgs s < cap
    · have h := (migrateMessage_append_props cap stOk f s m hex hq).2.2
      omega
    · rw [migrateMessage_oq cap stOk f s m hex hq]
  · rw [migrateMessage_skip cap stOk f s m hex]

theorem migrateMessage_brk (cap : Nat) (stOk : Bool) (f : String) (s : DstState)
    (m : Msg) (h : (migrateMessage cap stOk f s m).2.2 = true) :
    (migrateMessage cap stOk f s m).1 = s ∧ cap ≤ totalMsgs s := by
  cases hex : messageExists (getFolder s f) m
  · by_cases hq : totalMsgs s < cap
    · have := (migrateMessage_append_props cap stOk f s m hex hq).1
      rw [this] at h
      exact absurd h (by simp)
    · rw [migrateMessage_oq cap stOk f s m hex hq]
      exact ⟨rfl, by omega⟩
  · rw [migrateMessage_skip cap stOk f s m hex] at h
    exact absurd h (by simp)

theorem noOQAppend_append (a b : List Ev) :
    noOQAppend (a ++ b) ↔ noOQAppend a ∧ noOQAppend b := by
  simp [noOQAppend, List.mem_append]
  constructor
  · intro h
    exact ⟨fun g => (h g).1, fun g => (h g).2⟩
  · intro h g
    exact ⟨h.1 g, h.2 g⟩

theorem noOKAppend_append (a b : List Ev) :
    noOKAppend (a ++ b) ↔ noOKAppend a ∧ noOKAppend b := by
  simp [noOKAppend, List.mem_append]
  constructor
  · intro h
    exact ⟨fun g => (h g).1, fun g => (h g).2⟩
  · intro h g
    exact ⟨h.1 g, h.2 g⟩

theorem migrateMessage_oq_trace (cap : Nat) (stOk : Bool) (f : String)
    (s : DstState) (m : Msg) :
    ((migrateMessage cap stOk f s m).2.2 = true →
      ∃ t, (migrateMessage cap stOk f s m).2.1 = t ++ [Ev.append f "OVERQUOTA"]
        ∧ noOQAppend t)
    ∧ ((migrateMessage cap stOk f s m).2.2 = false →
      noOQAppend (migrateMessage cap stOk f s m).2.1) := by
  cases hex : messageExists (getFolder s f) m
  · by_cases hq : totalMsgs s < cap
    · have hOK : appendStatusRun cap s = "OK" := by rw [appendStatusRun_eq]; simp [hq]
      constructor
      · intro h
        have := (migrateMessage_append_props cap stOk f s m hex hq).1
        rw [this] at h
        exact absurd h (by simp)
      · intro _
        by_cases hfl : (m.flags.erase recentFlag).isEmpty = true <;>
          by_cases hst : stOk = true <;>
            simp [migrateMessage, hex, hOK, hfl, hst, noOQAppend]
    · rw [migrateMessage_oq cap stOk f s m hex hq]
      constructor
      · intro _
        exact ⟨[Ev.probe f false], rfl, by simp [noOQAppend]⟩
      · intro h
        exact absurd h (by simp)
  · rw [migrateMessage_skip cap stOk f s m hex]
    constructor
    · intro h
      exact absurd h (by simp)
    · intro _
      simp [noOQAppend]

/-! ### Lemmas for the inner message loop -/

theorem migrateMsgs_mono (cap : Nat) (stOk : Bool) (f : String) (msgs : List Msg) :
    ∀ (s : DstState) (g : String) (x : Msg),
      messageExists (getFolder s g) x = true →
      messageExists (getFolder (migrateMsgs cap stOk f msgs s).1 g) x = true := by
  induction msgs with
  | nil => intro s g x h; simpa [migrateMsgs] using h
  | cons m rest ih =>
    intro s g x h
    by_cases hb : (migrateMessage cap stOk f s m).2.2 = true
    · simp only [migrateMsgs, hb, if_true]
      exact migrateMessage_mono cap stOk f s m g x h
    · simp only [migrateMsgs, hb, if_false, Bool.false_eq_true]
      exact ih _ _ _ (migrateMessage_mono cap stOk f s m g x h)

theorem migrateMsgs_total_le (cap : Nat) (stOk : Bool) (f : String)
    (msgs : List Msg) : ∀ s : DstState,
    totalMsgs s ≤ totalMsgs (migrateMsgs cap stOk f msgs s).1 := by
  induction msgs with
  | nil => intro s; simp [migrateMsgs]
  | cons m rest ih =>
    intro s
    by_cases hb : (migrateMessage cap stOk f s m).2.2 = true
    · simp only [migrateMsgs, hb, if_true]
      exact migrateMessage_total_le cap stOk f s m
    · simp only [migrateMsgs, hb, if_false, Bool.false_eq_true]
      exact le_trans (migrateMessage_total_le cap stOk f s m) (ih _)

theorem migrateMsgs_brk (cap : Nat) (stOk : Bool) (f : String) (msgs : List Msg) :
    ∀ s : DstState, (migrateMsgs cap stOk f msgs s).2.2 = true →
      cap ≤ totalMsgs (migrateMsgs cap stOk f msgs s).1 := by
  induction msgs with
  | nil => intro s h; simp [migrateMsgs] at h
  | cons m rest ih =>
    intro s h
    by_cases hb : (migrateMessage cap stOk f s m).2.2 = true
    · simp only [migrateMsgs, hb, if_true]
      obtain ⟨h1, h2⟩ := migrateMessage_brk cap stOk f s m hb
      rw [h1]
      exact h2
    · simp only [migrateMsgs, hb, if_false, Bool.false_eq_true] at h ⊢
      exact ih _ h

theorem migrateMsgs_all_exist (cap : Nat) (stOk : Bool) (f : String)
    (msgs : List Msg) : ∀ s : DstState,
      (migrateMsgs cap stOk f msgs s).2.2 = false →
      ∀ m ∈ msgs,
        messageExists (getFolder (migrateMsgs cap stOk f msgs s).1 f) m = true := by
  induction msgs with
  | nil => intro s _ m hm; simp at hm
  | cons m0 rest ih =>
    intro s hb m hm
    by_cases hstep : (migrateMessage cap stOk f s m0).2.2 = true
    · simp only [migrateMsgs, hstep, if_true] at hb
      exact absurd hb (by simp)
    · simp only [migrateMsgs, hstep, if_false, Bool.false_eq_true] at hb ⊢
      rcases List.mem_cons.mp hm with hm0 | hmr
      · subst hm0
        have hex1 : messageExists (getFolder (migrateMessage cap stOk f s m).1 f) m
            = true := by
          cases hex : messageExists (getFolder s f) m
          · by_cases hq : totalMsgs s < cap
            · exact (migrateMessage_append_props cap stOk f s m hex hq).2.1
            · rw [migrateMessage_oq cap stOk f s m hex hq] at hstep
              exact absurd rfl hstep
          · rw [migrateMessage_skip cap stOk f s m hex]
            exact hex
        exact migrateMsgs_mono cap stOk f rest _ f m hex1
      · exact ih _ hb m hmr

theorem migrateMsgs_skip_all (cap : Nat) (stOk : Bool) (f : String)
    (msgs : List Msg) : ∀ s : DstState,
      (∀ m ∈ msgs, messageExists (getFolder s f) m = true) →
      (migrateMsgs cap stOk f msgs s).1 = s
      ∧ (migrateMsgs cap stOk f msgs s).2.2 = false
      ∧ noOKAppend (migrateMsgs cap stOk f msgs s).2.1 := by
  induction msgs with
  | nil => intro s _; exact ⟨rfl, rfl, by simp [migrateMsgs, noOKAppend]⟩
  | cons m0 rest ih =>
    intro s hall
    have hex : messageExists (getFolder s f) m0 = true := hall m0 (by simp)
    have hstep := migrateMessage_skip cap stOk f s m0 hex
    have hb : (migrateMessage cap stOk f s m0).2.2 = false := by rw [hstep]
    simp only [migrateMsgs, hb, if_false, Bool.false_eq_true]
    have hrest := ih s (fun m hm => hall m (by simp [hm]))
    rw [hstep]
    refine ⟨hrest.1, hrest.2.1, ?_⟩
    rw [noOKAppend_append]
    exact ⟨by simp [noOKAppend], hrest.2.2⟩

theorem migrateMsgs_quota_full (cap : Nat) (stOk : Bool) (f : String)
    (msgs : List Msg) : ∀ s : DstState, cap ≤ totalMsgs s →
      (migrateMsgs cap stOk f msgs s).1 = s
      ∧ noOKAppend (migrateMsgs cap stOk f msgs s).2.1 := by
  induction msgs with
  | nil => intro s _; exact ⟨rfl, by simp [migrateMsgs, noOKAppend]⟩
  | cons m0 rest ih =>
    intro s hq
    cases hex : messageExists (getFolder s f) m0
    · have hoq := migrateMessage_oq cap stOk f s m0 hex (by omega)
      have hb : (migrateMessage cap stOk f s m0).2.2 = true := by rw [hoq]
      simp only [migrateMsgs, hb, if_true]
      rw [hoq]
      exact ⟨rfl, by simp [noOKAppend]⟩
    · have hstep := migrateMessage_skip cap stOk f s m0 hex
      have hb : (migrateMessage cap stOk f s m0).2.2 = false := by rw [hstep]
      simp only [migrateMsgs, hb, if_false, Bool.false_eq_true]
      rw [hstep]
      have hrest := ih s hq
      refine ⟨hrest.1, ?_⟩
      rw [noOKAppend_append]
      exact ⟨by simp [noOKAppend], hrest.2⟩

theorem migrateMsgs_oq_trace (cap : Nat) (stOk : Bool) (f : String)
    (msgs : List Msg) : ∀ s : DstState,
    ((migrateMsgs cap stOk f msgs s).2.2 = true →
      ∃ t g, (migrateMsgs cap stOk f msgs s).2.1 = t ++ [Ev.append g "OVERQUOTA"]
        ∧ noOQAppend t)
    ∧ ((migrateMsgs cap stOk f msgs s).2.2 = false →
      noOQAppend (migrateMsgs cap stOk f msgs s).2.1) := by
  induction msgs with
  | nil =>
    intro s
    exact ⟨fun h => by simp [migrateMsgs] at h, fun _ => by simp [migrateMsgs, noOQAppend]⟩
  | cons m0 rest ih =>
    intro s
    by_cases hb : (migrateMessage cap stOk f s m0).2.2 = true
    · simp only [migrateMsgs, hb, if_true]
      constructor
      · intro _
        obtain ⟨t, ht, hno⟩ := (migrateMessage_oq_trace cap stOk f s m0).1 hb
        exact ⟨t, f, ht, hno⟩
      · intro h
        exact absurd h (by simp)
    · have hb' : (migrateMessage cap stOk f s m0).2.2 = false := by
        simpa using hb
      simp only [migrateMsgs, hb, if_false, Bool.false_eq_true]
      have hstep := (migrateMessage_oq_trace cap stOk f s m0).2 hb'
      have hrest := ih (migrateMessage cap stOk f s m0).1
      constructor
      · intro h
        obtain ⟨t, g, ht, hno⟩ := hrest.1 h
        refine ⟨(migrateMessage cap stOk f s m0).2.1 ++ t, g, ?_, ?_⟩
        · rw [ht, List.append_assoc]
        · rw [noOQAppend_append]
          exact ⟨hstep, hno⟩
      · intro h
        rw [noOQAppend_append]
        exact ⟨hstep, hrest.2 h⟩

/-! ### Lemmas for the outer mailbox loop -/

theorem migrateBoxes_mono (cfg : RunCfg) (src : List (String × List Msg)) :
    ∀ (s : DstState) (g : String) (x : Msg),
      messageExists (getFolder s g) x = true →
      messageExists (getFolder (migrateBoxes cfg src s).1 g) x = true := by
  induction src with
  | nil => intro s g x h; simpa [migrateBoxes] using h
  | cons e rest ih =>
    obtain ⟨line, msgs⟩ := e
    intro s g x h
    by_cases hskip : skipMailbox line = true
    · simp only [migrateBoxes, hskip, if_true]
      exact ih s g x h
    · by_cases hemp : msgs.isEmpty = true
      · simp only [migrateBoxes, hskip, hemp, if_true, if_false, Bool.false_eq_true]
        exact ih s g x h
      · have hmid := migrateMsgs_mono cfg.cap cfg.stOk
          (cfg.mapf (bareName cfg.srcSep line)) msgs s g x h
        by_cases hb : (migrateMsgs cfg.cap cfg.stOk
            (cfg.mapf (bareName cfg.srcSep line)) msgs s).2.2 = true
        · simp only [migrateBoxes, hskip, hemp, hb, if_true, if_false,
            Bool.false_eq_true]
          exact hmid
        · simp only [migrateBoxes, hskip, hemp, hb, if_false, Bool.false_eq_true]
          exact ih _ g x hmid

theorem migrateBoxes_brk (cfg : RunCfg) (src : List (String × List Msg)) :
    ∀ s : DstState, (migrateBoxes cfg src s).2.2 = true →
      cfg.cap ≤ totalMsgs (migrateBoxes cfg src s).1 := by
  induction src with
  | nil => intro s h; simp [migrateBoxes] at h
  | cons e rest ih =>
    obtain ⟨line, msgs⟩ := e
    intro s h
    by_cases hskip : skipMailbox line = true
    · simp only [migrateBoxes, hskip, if_true] at h ⊢
      exact ih s h
    · by_cases hemp : msgs.isEmpty = true
      · simp only [migrateBoxes, hskip, hemp, if_true, if_false,
          Bool.false_eq_true] at h ⊢
        exact ih s h
      · by_cases hb : (migrateMsgs cfg.cap cfg.stOk
            (cfg.mapf (bareName cfg.srcSep line)) msgs s).2.2 = true
        · simp only [migrateBoxes, hskip, hemp, hb, if_true, if_false,
            Bool.false_eq_true]
          exact migrateMsgs_brk cfg.cap cfg.stOk _ msgs s hb
        · simp only [migrateBoxes, hskip, hemp, hb, if_false,
            Bool.false_eq_true] at h ⊢
          exact ih _ h

theorem migrateBoxes_all_exist (cfg : RunCfg) (src : List (String × List Msg)) :
    ∀ s : DstState, (migrateBoxes cfg src s).2.2 = false →
      ∀ line msgs, (line, msgs) ∈ src → skipMailbox line = false →
        msgs.isEmpty = false → ∀ m ∈ msgs,
          messageExists
            (getFolder (migrateBoxes cfg src s).1
              (cfg.mapf (bareName cfg.srcSep line))) m = true := by
  induction src with
  | nil => intro s _ line msgs hmem; simp at hmem
  | cons e rest ih =>
    obtain ⟨line0, msgs0⟩ := e
    intro s hb line msgs hmem hskip hemp m hm
    rcases List.mem_cons.mp hmem with hhead | htail
    · obtain ⟨h1, h2⟩ := Prod.mk.injEq .. ▸ hhead
      subst h1
      subst h2
      simp only [migrateBoxes, hskip, hemp, if_false, Bool.false_eq_true] at hb ⊢
      by_cases hbm : (migrateMsgs cfg.cap cfg.stOk
          (cfg.mapf (bareName cfg.srcSep line)) msgs s).2.2 = true
      · simp only [hbm, if_true] at hb
        exact absurd hb (by simp)
      · have hbm' : (migrateMsgs cfg.cap cfg.stOk
            (cfg.mapf (bareName cfg.srcSep line)) msgs s).2.2 = false := by
          simpa using hbm
        simp only [hbm, if_false, Bool.false_eq_true]
        have hex := migrateMsgs_all_exist cfg.cap cfg.stOk
          (cfg.mapf (bareName cfg.srcSep line)) msgs s hbm' m hm
        exact migrateBoxes_mono cfg rest _ _ m hex
    · by_cases hskip0 : skipMailbox line0 = true
      · simp only [migrateBoxes, hskip0, if_true] at hb ⊢
        exact ih s hb line msgs htail hskip hemp m hm
      · by_cases hemp0 : msgs0.isEmpty = true
        · simp only [migrateBoxes, hskip0, hemp0, if_true, if_false,
            Bool.false_eq_true] at hb ⊢
          exact ih s hb line msgs htail hskip hemp m hm
        · by_cases hbm : (migrateMsgs cfg.cap cfg.stOk
              (cfg.mapf (bareName cfg.srcSep line0)) msgs0 s).2.2 = true
          · simp only [migrateBoxes, hskip0, hemp0, hbm, if_true, if_false,
              Bool.false_eq_true] at hb
            exact absurd hb (by simp)
          · simp only [migrateBoxes, hskip0, hemp0, hbm, if_false,
              Bool.false_eq_true] at hb ⊢
            exact ih _ hb line msgs htail hskip hemp m hm

theorem migrateBoxes_skip_all (cfg : RunCfg) (src : List (String × List Msg)) :
    ∀ s : DstState,
      (∀ line msgs, (line, msgs) ∈ src → skipMailbox line = false →
        msgs.isEmpty = false → ∀ m ∈ msgs,
          messageExists (getFolder s (cfg.mapf (bareName cfg.srcSep line))) m
            = true) →
      (migrateBoxes cfg src s).1 = s
      ∧ noOKAppend (migrateBoxes cfg src s).2.1 := by
  induction src with
  | nil => intro s _; exact ⟨rfl, by simp [migrateBoxes, noOKAppend]⟩
  | cons e rest ih =>
    obtain ⟨line0, msgs0⟩ := e
    intro s hall
    by_cases hskip0 : skipMailbox line0 = true
    · simp only [migrateBoxes, hskip0, if_true]
      exact ih s (fun line msgs hmem => hall line msgs (by simp [hmem]))
    · by_cases hemp0 : msgs0.isEmpty = true
      · simp only [migrateBoxes, hskip0, hemp0, if_true, if_false,
          Bool.false_eq_true]
        exact ih s (fun line msgs hmem => hall line msgs (by simp [hmem]))
      · have hall0 := hall line0 msgs0 (by simp) (by simpa using hskip0)
          (by simpa using hemp0)
        obtain ⟨hs1, hb1, hno1⟩ := migrateMsgs_skip_all cfg.cap cfg.stOk
          (cfg.mapf (bareName cfg.srcSep line0)) msgs0 s hall0
        simp only [migrateBoxes, hskip0, hemp0, hb1, if_false, Bool.false_eq_true]
        rw [hs1]
        have hrest := ih s (fun line msgs hmem => hall line msgs (by simp [hmem]))
        refine ⟨hrest.1, ?_⟩
        rw [noOKAppend_append]
        exact ⟨hno1, hrest.2⟩

theorem migrateBoxes_quota_full (cfg : RunCfg) (src : List (String × List Msg)) :
    ∀ s : DstState, cfg.cap ≤ totalMsgs s →
      (migrateBoxes cfg src s).1 = s
      ∧ noOKAppend (migrateBoxes cfg src s).2.1 := by
  induction src with
  | nil => intro s _; exact ⟨rfl, by simp [migrateBoxes, noOKAppend]⟩
  | cons e rest ih =>
    obtain ⟨line0, msgs0⟩ := e
    intro s hq
    by_cases hskip0 : skipMailbox line0 = true
    · simp only [migrateBoxes, hskip0, if_true]
      exact ih s hq
    · by_cases hemp0 : msgs0.isEmpty = true
      · simp only [migrateBoxes, hskip0, hemp0, if_true, if_false,
          Bool.false_eq_true]
        exact ih s hq
      · obtain ⟨hs1, hno1⟩ := migrateMsgs_quota_full cfg.cap cfg.stOk
          (cfg.mapf (bareName cfg.srcSep line0)) msgs0 s hq
        by_cases hb : (migrateMsgs cfg.cap cfg.stOk
            (cfg.mapf (bareName cfg.srcSep line0)) msgs0 s).2.2 = true
        · simp only [migrateBoxes, hskip0, hemp0, hb, if_true, if_false,
            Bool.false_eq_true]
          exact ⟨hs1, hno1⟩
        · simp only [migrateBoxes, hskip0, hemp0, hb, if_false,
            Bool.false_eq_true]
          rw [hs1]
          have hrest := ih s hq
          refine ⟨hrest.1, ?_⟩
          rw [noOKAppend_append]
          exact ⟨hno1, hrest.2⟩

theorem migrateBoxes_oq_trace (cfg : RunCfg) (src : List (String × List Msg)) :
    ∀ s : DstState,
    ((migrateBoxes cfg src s).2.2 = true →
      ∃ t g, (migrateBoxes cfg src s).2.1 = t ++ [Ev.append g "OVERQUOTA"]
        ∧ noOQAppend t)
    ∧ ((migrateBoxes cfg src s).2.2 = false →
      noOQAppend (migrateBoxes cfg src s).2.1) := by
  induction src with
  | nil =>
    intro s
    exact ⟨fun h => by simp [migrateBoxes] at h,
      fun _ => by simp [migrateBoxes, noOQAppend]⟩
  | cons e rest ih =>
    obtain ⟨line0, msgs0⟩ := e
    intro s
    by_cases hskip0 : skipMailbox line0 = true
    · simp only [migrateBoxes, hskip0, if_true]
      exact ih s
    · by_cases hemp0 : msgs0.isEmpty = true
      · simp only [migrateBoxes, hskip0, hemp0, if_true, if_false,
          Bool.false_eq_true]
        exact ih s
      · have hmid := migrateMsgs_oq_trace cfg.cap cfg.stOk
          (cfg.mapf (bareName cfg.srcSep line0)) msgs0 s
        by_cases hb : (migrateMsgs cfg.cap cfg.stOk
            (cfg.mapf (bareName cfg.srcSep line0)) msgs0 s).2.2 = true
        · simp only [migrateBoxes, hskip0, hemp0, hb, if_true, if_false,
            Bool.false_eq_true]
          exact ⟨fun _ => hmid.1 hb, fun h => absurd h (by simp)⟩
        · have hb' : (migrateMsgs cfg.cap cfg.stOk
              (cfg.mapf (bareName cfg.srcSep line0)) msgs0 s).2.2 = false := by
            simpa using hb
          simp only [migrateBoxes, hskip0, hemp0, hb, if_false, Bool.false_eq_true]
          have hstep := hmid.2 hb'
          have hrest := ih (migrateMsgs cfg.cap cfg.stOk
            (cfg.mapf (bareName cfg.srcSep line0)) msgs0 s).1
          constructor
          · intro h
            obtain ⟨t, g, ht, hno⟩ := hrest.1 h
            refine ⟨(migrateMsgs cfg.cap cfg.stOk
              (cfg.mapf (bareName cfg.srcSep line0)) msgs0 s).2.1 ++ t, g, ?_, ?_⟩
            · rw [ht, List.append_assoc]
            · rw [noOQAppend_append]
              exact ⟨hstep, hno⟩
          · intro h
            rw [noOQAppend_append]
            exact ⟨hstep, hrest.2 h⟩

/-- Helper: if a list equals `t ++ [y]` and the element `x` exhibited in
the middle does not occur in `t`, then nothing follows `x`. -/
theorem append_single_eq {α : Type} (t1 t2 t : List α) (x y : α)
    (h : t1 ++ x :: t2 = t ++ [y]) (hx : x ∉ t) : t2 = [] := by
  rcases List.append_eq_append_iff.mp h with ⟨a, ha1, ha2⟩ | ⟨c, hc1, hc2⟩
  · cases a with
    | nil =>
      simp at ha2
      exact ha2.2
    | cons z zs =>
      exfalso
      have hxz : x = z := by
        have h2 := ha2
        simp at h2
        exact h2.1
      apply hx
      rw [ha1, hxz]
      simp
  · cases c with
    | nil =>
      simp at hc2
      exact hc2.2
    | cons z zs =>
      exfalso
      have := congrArg List.length hc2
      simp at this

/-! ### Claim theorems C1, C3, C4 -/

/-- Bridge: when the probe for `m` succeeds, the probe-failure-aware
iteration coincides with the specialized one. -/
theorem migrateMessageP_true (probeOk : Msg → Bool) (cap : Nat) (stOk : Bool)
    (f : String) (s : DstState) (m : Msg) (h : probeOk m = true) :
    migrateMessageP probeOk cap stOk f s m = migrateMessage cap stOk f s m := by
  simp only [migrateMessageP, migrateMessage, messageExistsChecked, h,
    Bool.true_and]

/-- Bridge for the message loop. -/
theorem migrateMsgsP_eq (probeOk : Msg → Bool) (cap : Nat) (stOk : Bool)
    (f : String) (msgs : List Msg) (hpr : ∀ m ∈ msgs, probeOk m = true) :
    ∀ s : DstState,
      migrateMsgsP probeOk cap stOk f msgs s = migrateMsgs cap stOk f msgs s := by
  induction msgs with
  | nil => intro s; rfl
  | cons m rest ih =>
    intro s
    have hm := migrateMessageP_true probeOk cap stOk f s m (hpr m (by simp))
    have hr := ih (fun x hx => hpr x (by simp [hx]))
    simp only [migrateMsgsP, migrateMsgs, hm, hr]

/-- Bridge for the mailbox loop. -/
theorem migrateBoxesP_eq (probeOk : Msg → Bool) (cfg : RunCfg)
    (src : List (String × List Msg))
    (hpr : ∀ line msgs, (line, msgs) ∈ src → ∀ m ∈ msgs, probeOk m = true) :
    ∀ s : DstState, migrateBoxesP probeOk cfg src s = migrateBoxes cfg src s := by
  induction src with
  | nil => intro s; rfl
  | cons e rest ih =>
    obtain ⟨line0, msgs0⟩ := e
    intro s
    have hmsgs := migrateMsgsP_eq probeOk cfg.cap cfg.stOk
      (cfg.mapf (bareName cfg.srcSep line0)) msgs0
      (fun m hm => hpr line0 msgs0 (by simp) m hm)
    have hrest := ih (fun line msgs hmem => hpr line msgs (by simp [hmem]))
    simp only [migrateBoxesP, migrateBoxes, hmsgs, hrest]

/-- Skip lemma for the probe-failure-aware iteration. -/
theorem migrateMessageP_skip (probeOk : Msg → Bool) (cap : Nat) (stOk : Bool)
    (f : String) (s : DstState) (m : Msg)
    (hex : messageExistsChecked probeOk (getFolder s f) m = true) :
    migrateMessageP probeOk cap stOk f s m = (s, [Ev.probe f true], false) := by
  simp [migrateMessageP, hex]

/-- C1 counterexample: with the destination probe failing (tagged NO or
`IMAP4.error` on `SEARCH`, which `_message_exists` converts to
`return False`), the engine issues an `APPEND` for a message whose copy
is already present at the destination — the probe never returned an
empty result — and re-running is not idempotent: the second run appends
again and the destination state keeps growing. -/
theorem append_despite_failed_probe_cex :
    messageExists (getFolder dst1 "INBOX") m0 = true
    ∧ Ev.append "INBOX" "OK" ∈ (migrateBoxesP pOkFalse cfg1 src0 dst1).2.1
    ∧ Ev.append "INBOX" "OK"
        ∈ (migrateBoxesP pOkFalse cfg1 src0
            (migrateBoxesP pOkFalse cfg1 src0 dst1).1).2.1
    ∧ (migrateBoxesP pOkFalse cfg1 src0
          (migrateBoxesP pOkFalse cfg1 src0 dst1).1).1
        ≠ (migrateBoxesP pOkFalse cfg1 src0 dst1).1 := by decide

/-- C1 amended: an `APPEND` is issued for a message exactly when
`_message_exists` returned `False`, which covers both an empty probe
result and a *failed* probe (tagged NO or `IMAP4.error` on the
destination `SEARCH`, lines 646-651/668-670); and re-running the pair is
idempotent under the proviso that every destination probe succeeds: the
second run's state equals the first run's state and its trace contains
no `APPEND` answered `OK`. -/
theorem append_iff_probe_false_and_guarded_idempotence :
    (∀ (probeOk : Msg → Bool) (cap : Nat) (stOk : Bool) (f : String)
        (s : DstState) (m : Msg) (g st : String),
      Ev.append g st ∈ (migrateMessageP probeOk cap stOk f s m).2.1 →
        messageExistsChecked probeOk (getFolder s f) m = false)
    ∧ (∀ (probeOk : Msg → Bool) (cap : Nat) (stOk : Bool) (f : String)
        (s : DstState) (m : Msg),
      messageExistsChecked probeOk (getFolder s f) m = false →
        Ev.append f (appendStatusRun cap s)
          ∈ (migrateMessageP probeOk cap stOk f s m).2.1)
    ∧ ∀ (probeOk : Msg → Bool) (cfg : RunCfg)
        (src : List (String × List Msg)) (s : DstState),
        (∀ line msgs, (line, msgs) ∈ src → ∀ m ∈ msgs, probeOk m = true) →
        (migrateBoxesP probeOk cfg src (migrateBoxesP probeOk cfg src s).1).1
          = (migrateBoxesP probeOk cfg src s).1
        ∧ noOKAppend
            (migrateBoxesP probeOk cfg src
              (migrateBoxesP probeOk cfg src s).1).2.1 := by
  refine ⟨?_, ?_, ?_⟩
  · intro probeOk cap stOk f s m g st hmem
    cases hex : messageExistsChecked probeOk (getFolder s f) m
    · rfl
    · rw [migrateMessageP_skip probeOk cap stOk f s m hex] at hmem
      simp at hmem
  · intro probeOk cap stOk f s m hex
    by_cases h1 : appendStatusRun cap s = "OK"
    · by_cases hfl : (m.flags.erase recentFlag).isEmpty = true <;>
        by_cases hst : stOk = true <;>
          simp [migrateMessageP, hex, h1, hfl, hst]
    · by_cases h2 : appendStatusRun cap s = "OVERQUOTA"
      · simp [migrateMessageP, hex, h1, h2]
      · simp [migrateMessageP, hex, h1, h2]
  · intro probeOk cfg src s hpr
    rw [migrateBoxesP_eq probeOk cfg src hpr, migrateBoxesP_eq probeOk cfg src hpr]
    by_cases hb : (migrateBoxes cfg src s).2.2 = true
    · exact migrateBoxes_quota_full cfg src _ (migrateBoxes_brk cfg src s hb)
    · have hb' : (migrateBoxes cfg src s).2.2 = false := by simpa using hb
      exact migrateBoxes_skip_all cfg src _
        (fun line msgs hmem hskip hemp m hm =>
          migrateBoxes_all_exist cfg src s hb' line msgs hmem hskip hemp m hm)

/-- C1 witness: the three parts applied at concrete inputs — an
append-after-empty-probe with all probes succeeding, an append forced by
a failing probe, and an idempotent double run against an empty
destination. -/
theorem append_iff_probe_false_witness :
    messageExistsChecked pOkTrue (getFolder [] "INBOX") m0 = false
    ∧ Ev.append "INBOX" (appendStatusRun 10 dst1)
        ∈ (migrateMessageP pOkFalse 10 true "INBOX" dst1 m0).2.1
    ∧ ((migrateBoxesP pOkTrue cfg1 src0 (migrateBoxesP pOkTrue cfg1 src0 []).1).1
          = (migrateBoxesP pOkTrue cfg1 src0 []).1
        ∧ noOKAppend
            (migrateBoxesP pOkTrue cfg1 src0
              (migrateBoxesP pOkTrue cfg1 src0 []).1).2.1) :=
  ⟨append_iff_probe_false_and_guarded_idempotence.1 pOkTrue 1 true "INBOX" []
      m0 "INBOX" "OK" (by decide),
    append_iff_probe_false_and_guarded_idempotence.2.1 pOkFalse 10 true "INBOX"
      dst1 m0 (by decide),
    append_iff_probe_false_and_guarded_idempotence.2.2 pOkTrue cfg1 src0 []
      (fun _ _ _ _ _ => rfl)⟩

/-- C3: when an `APPEND` comes back `[OVERQUOTA]`, the pair's trace ends
right there — no later probe, append or store happens in the pair — and
the engine still runs every configured pair (`runAll` is an
unconditional map over the pair list). -/
theorem overquota_ends_pair_and_pairs_continue :
    (∀ (cfg : RunCfg) (src : List (String × List Msg)) (s : DstState)
        (t1 : List Ev) (g : String) (t2 : List Ev),
      (migrateBoxes cfg src s).2.1 = t1 ++ Ev.append g "OVERQUOTA" :: t2 →
        t2 = [])
    ∧ ∀ (pairs : List PairInput) (i : Nat),
        (runAll pairs)[i]? =
          (pairs[i]?).map (fun p => migrateBoxes p.cfg p.src p.dst) := by
  constructor
  · intro cfg src s t1 g t2 heq
    by_cases hb : (migrateBoxes cfg src s).2.2 = true
    · obtain ⟨t, g', ht, hno⟩ := (migrateBoxes_oq_trace cfg src s).1 hb
      rw [ht] at heq
      exact append_single_eq t1 t2 t _ _ heq.symm (hno g)
    · have hb' : (migrateBoxes cfg src s).2.2 = false := by simpa using hb
      have hno := (migrateBoxes_oq_trace cfg src s).2 hb'
      have hmem : Ev.append g "OVERQUOTA" ∈ (migrateBoxes cfg src s).2.1 := by
        rw [heq]; simp
      exact absurd hmem (hno g)
  · intro pairs i
    simp [runAll, List.getElem?_map]

/-- C3 witness: a destination with zero quota answers the very first
append `[OVERQUOTA]`; the trace ends with that event. -/
theorem overquota_ends_pair_witness :
    (migrateBoxes cfg0 src0 []).2.1
      = [Ev.probe "INBOX" false] ++ Ev.append "INBOX" "OVERQUOTA" :: []
    ∧ ([] : List Ev) = [] :=
  ⟨by decide,
    overquota_ends_pair_and_pairs_continue.1 cfg0 src0 []
      [Ev.probe "INBOX" false] "INBOX" [] (by decide)⟩

/-- C4: after a successful `APPEND` of a message whose flags are
non-empty once `\Recent` is stripped, a flag `STORE` against the
destination is traced, the migration is not blocked (break flag stays
down, also when the store fails), and when the store succeeds its target
— the last message of the destination folder — is the appended copy,
which matches the appended message's Message-ID (or fallback) criteria. -/
theorem flags_stored_after_append (cap : Nat) (stOk : Bool) (f : String)
    (s : DstState) (m : Msg)
    (hex : messageExists (getFolder s f) m = false)
    (hq : totalMsgs s < cap)
    (hfl : m.flags.erase recentFlag ≠ []) :
    Ev.store f (m.flags.erase recentFlag) ∈ (migrateMessage cap stOk f s m).2.1
    ∧ Ev.append f "OK" ∈ (migrateMessage cap stOk f s m).2.1
    ∧ (migrateMessage cap stOk f s m).2.2 = false
    ∧ (stOk = true →
        (getFolder (migrateMessage cap stOk f s m).1 f).getLast?
          = some (storeFn (m.flags.erase recentFlag) m))
    ∧ messageExists [storeFn (m.flags.erase recentFlag) m] m = true := by
  have hOK : appendStatusRun cap s = "OK" := by rw [appendStatusRun_eq]; simp [hq]
  have hflE : (m.flags.erase recentFlag).isEmpty = false :=
    List.isEmpty_eq_false.mpr hfl
  by_cases hst : stOk = true
  · subst hst
    refine ⟨?_, ?_, ?_, ?_, messageExists_single_storeFn _ m⟩
    · simp [migrateMessage, hex, hOK, hflE]
    · simp [migrateMessage, hex, hOK, hflE]
    · simp [migrateMessage, hex, hOK, hflE]
    · intro _
      simp only [migrateMessage, hex, hOK, hflE]
      simp
      rw [getFolder_storeLast_same, getFolder_putFolder_same, updateLast_concat,
        List.getLast?_concat]
  · have hst' : stOk = false := by simpa using hst
    subst hst'
    refine ⟨?_, ?_, ?_, fun h => absurd h (by simp),
      messageExists_single_storeFn _ m⟩
    · simp [migrateMessage, hex, hOK, hflE]
    · simp [migrateMessage, hex, hOK, hflE]
    · simp [migrateMessage, hex, hOK, hflE]

/-- C4 witness: the theorem applied to a fresh `\Seen` message appended
to an empty destination folder. -/
theorem flags_stored_after_append_witness :
    Ev.store "INBOX" (m0.flags.erase recentFlag)
        ∈ (migrateMessage 1 true "INBOX" [] m0).2.1
    ∧ Ev.append "INBOX" "OK" ∈ (migrateMessage 1 true "INBOX" [] m0).2.1
    ∧ (migrateMessage 1 true "INBOX" [] m0).2.2 = false
    ∧ (true = true →
        (getFolder (migrateMessage 1 true "INBOX" [] m0).1 "INBOX").getLast?
          = some (storeFn (m0.flags.erase recentFlag) m0))
    ∧ messageExists [storeFn (m0.flags.erase recentFlag) m0] m0 = true :=
  flags_stored_after_append 1 true "INBOX" [] m0 (by decide) (by decide)
    (by decide)

/-! ### Claim theorems C2, C5, C6, C7, C8, C9, C10 -/

/-- C2: the skip filter of line 808 does not test the three attribute
words — its character class matches a backslash followed by any single
class character.  A `LIST` entry whose only attribute is `\Archive` is
skipped (the class contains `A`) although its attribute set is disjoint
from `{\Noselect, \All, \Flagged}` (per the spec-modelled predicate). -/
theorem skip_filter_class_bug :
    skipMailbox "(\\Archive) \"/\" Archive" = true
    ∧ specSkipAttrs ["\\Archive"] = false := by decide

/-- C5 counterexample: with two configured attempts, attempt 1 failing
source re-authentication and attempt 2 succeeding, `_reconnect` returns
at attempt 2 — a further retry attempt *was* made after an
authentication failure, instead of the claimed immediate abort. -/
theorem reconnect_continues_after_auth_failure_cex :
    reconnect 2 authFailThenOk = some 2 ∧ (authFailThenOk 1).1 = false := by
  decide

theorem reconnectFrom_some (f : Nat → Bool × Bool) :
    ∀ (n i k : Nat), reconnectFrom f n i = some k →
      ((f k).1 && (f k).2) = true ∧ i ≤ k ∧ k < i + n
      ∧ ∀ j, i ≤ j → j < k → ((f j).1 && (f j).2) = false := by
  intro n
  induction n with
  | zero => intro i k h; simp [reconnectFrom] at h
  | succ n ih =>
    intro i k h
    by_cases hok : ((f i).1 && (f i).2) = true
    · simp only [reconnectFrom, hok, if_true] at h
      obtain rfl : i = k := Option.some.inj h
      exact ⟨hok, le_refl _, by omega, fun j h1 h2 => by omega⟩
    · have hok' : ((f i).1 && (f i).2) = false := by simpa using hok
      simp only [reconnectFrom, hok', Bool.false_eq_true, if_false] at h
      obtain ⟨h1, h2, h3, h4⟩ := ih (i + 1) k h
      refine ⟨h1, by omega, by omega, ?_⟩
      intro j hj1 hj2
      by_cases hji : j = i
      · subst hji; exact hok'
      · exact h4 j (by omega) hj2

theorem reconnectFrom_none (f : Nat → Bool × Bool) :
    ∀ (n i : Nat), reconnectFrom f n i = none ↔
      ∀ k, i ≤ k → k < i + n → ((f k).1 && (f k).2) = false := by
  intro n
  induction n with
  | zero =>
    intro i
    constructor
    · intro _ k h1 h2; omega
    · intro _; rfl
  | succ n ih =>
    intro i
    constructor
    · intro h k h1 h2
      by_cases hok : ((f i).1 && (f i).2) = true
      · simp only [reconnectFrom, hok, if_true] at h
        exact absurd h (by simp)
      · have hok' : ((f i).1 && (f i).2) = false := by simpa using hok
        simp only [reconnectFrom, hok', Bool.false_eq_true, if_false] at h
        by_cases hki : k = i
        · subst hki; exact hok'
        · exact (ih (i + 1)).mp h k (by omega) (by omega)
    · intro h
      have hok : ((f i).1 && (f i).2) = false := h i (le_refl i) (by omega)
      simp only [reconnectFrom, hok, Bool.false_eq_true, if_false]
      exact (ih (i + 1)).mpr (fun k h1 h2 => h k (by omega) (by omega))

/-- C5 amended: an attempt that fails re-authentication of either
session makes the loop proceed to the *next* attempt; `_reconnect`
returns at the first attempt where both sessions re-authenticate, and
only when all configured attempts fail does it call `sys.exit(1)`,
ending the whole process (not just the current pair). -/
theorem reconnect_first_success_or_exit_process :
    ∀ (a : Nat) (f : Nat → Bool × Bool),
      (reconnect a f = none ↔
        ∀ k, 1 ≤ k → k ≤ a → ((f k).1 && (f k).2) = false)
      ∧ ∀ k, reconnect a f = some k →
          ((f k).1 && (f k).2) = true ∧ 1 ≤ k ∧ k ≤ a
          ∧ ∀ j, 1 ≤ j → j < k → ((f j).1 && (f j).2) = false := by
  intro a f
  constructor
  · rw [reconnect, reconnectFrom_none]
    constructor
    · intro h k h1 h2; exact h k h1 (by omega)
    · intro h k h1 h2; exact h k h1 (by omega)
  · intro k h
    obtain ⟨h1, h2, h3, h4⟩ := reconnectFrom_some f a 1 k h
    exact ⟨h1, h2, by omega, h4⟩

/-- C5 witness: the amended theorem applied to the two-attempt oracle
whose first attempt fails authentication. -/
theorem reconnect_first_success_witness :
    ((authFailThenOk 2).1 && (authFailThenOk 2).2) = true ∧ 1 ≤ 2 ∧ 2 ≤ 2
    ∧ ∀ j, 1 ≤ j → j < 2 →
        ((authFailThenOk j).1 && (authFailThenOk j).2) = false :=
  (reconnect_first_success_or_exit_process 2 authFailThenOk).2 2 (by decide)

/-- C6 counterexample: on the exit path where both connects succeeded
but obtaining the mailbox list failed, `_migrate` returns without
disconnecting either session — refuting "both sessions are disconnected
on every exit". -/
theorem disconnect_missing_on_list_failure_cex :
    migrateDisconnects true false false = false := by decide

/-- C6 amended: `_disconnect` runs on normal completion (including the
overquota break) and on connect/authentication failure, but not when the
`LIST` of either server fails (bare `return` at line 799) and not on
user interrupt (`sys.exit()` in `__init__`); when it does run, each
established session gets `CLOSE` only from the `SELECTED` state,
followed by `LOGOUT`. -/
theorem disconnect_paths_amended :
    (∀ c l i, migrateDisconnects c l i = (!i && (!c || l)))
    ∧ disconnectOps1 ⟨true, "SELECTED"⟩ = ["CLOSE", "LOGOUT"]
    ∧ (∀ st, st ≠ "SELECTED" → disconnectOps1 ⟨true, st⟩ = ["LOGOUT"])
    ∧ ∀ st, disconnectOps1 ⟨false, st⟩ = [] := by
  refine ⟨by decide, by decide, ?_, ?_⟩
  · intro st h
    simp [disconnectOps1, h]
  · intro st
    simp [disconnectOps1]

/-- C6 witness: a connected session that is merely authenticated (state
`AUTH`) receives `LOGOUT` without a preceding `CLOSE`. -/
theorem disconnect_paths_witness :
    disconnectOps1 ⟨true, "AUTH"⟩ = ["LOGOUT"] :=
  disconnect_paths_amended.2.2.1 "AUTH" (by decide)

/-- C7 counterexample: on the spec's own Gmail scenario the special-use
branch returns the matching destination entry's full name after the
separator field — `"[Gmail]/Sent Mail"`, quotes included — not the
claimed bare `Sent Mail` (the `[Gmail]` strip of line 494 only runs for
non-Gmail destination hosts). -/
theorem namespace_map_sent_cex :
    findFoldername srcCourier dstGmail "INBOX.Sent"
      = some "\"[Gmail]/Sent Mail\""
    ∧ findFoldername srcCourier dstGmail "INBOX.Sent" ≠ some "Sent Mail" := by
  decide

/-- C7 amended: for the `.`-separator `INBOX.`-prefixed source and the
Gmail destination, the mapping yields `INBOX → INBOX`,
`INBOX.Sent → "[Gmail]/Sent Mail"` (the full quoted entry name), and
`INBOX.Work.2023 → Work/2023`. -/
theorem namespace_map_gmail_amended :
    findFoldername srcCourier dstGmail "INBOX" = some "INBOX"
    ∧ findFoldername srcCourier dstGmail "INBOX.Sent"
        = some "\"[Gmail]/Sent Mail\""
    ∧ findFoldername srcCourier dstGmail "INBOX.Work.2023"
        = some "Work/2023" := by decide

/-- C8 counterexample: the `KeyboardInterrupt` handler calls `sys.exit()`
with no argument, so a user interrupt exits with status 0, not the
claimed 130. -/
theorem exit_code_interrupt_cex :
    exitCode RunOutcome.interrupted = 0
    ∧ exitCode RunOutcome.interrupted ≠ 130 := by decide

/-- C8 amended: exit code 0 on normal completion, 1 when the
reconnection attempts are exhausted, and 0 (not 130) on user
interrupt. -/
theorem exit_codes_amended :
    exitCode RunOutcome.normal = 0
    ∧ exitCode RunOutcome.reconnExhausted = 1
    ∧ exitCode RunOutcome.interrupted = 0 := by decide

/-- C9: a tagged NO on `APPEND` is turned into the status `'NO'` (or
`'OVERQUOTA'` when the text carries `[OVERQUOTA]`) and handled, but a
tagged BAD makes `imaplib` raise, after which line 726 iterates the
exception object and crashes with an unhandled `TypeError`, terminating
the run — contradicting "never raises an unhandled exception". -/
theorem append_bad_crashes :
    appendMessageStatus AppendResp.bad = Except.error ()
    ∧ appendMessageStatus (AppendResp.no ["NO [ALERT] Mailbox full"])
        = Except.ok "NO"
    ∧ appendMessageStatus (AppendResp.no [overquotaLine])
        = Except.ok "OVERQUOTA" :=
  ⟨rfl, rfl, rfl⟩

/-- C10: the destination-folder computation is partial — on a source
name carrying a special-use label with no matching destination entry it
reaches the unassigned `foldername` (here `none`, an
`UnboundLocalError` in Python) — and it is total whenever every label
extracted from the source name has a matching destination entry. -/
theorem findFoldername_none_without_match :
    findFoldername srcCourier dstNoSent "INBOX.Sent" = none
    ∧ ∀ (src dst : MailInfo) (m : String),
        (∀ l, findLabel m.data = some l →
          ∃ e ∈ dst.allMailboxes, hasSepLabel l e.data = true) →
        (findFoldername src dst m).isSome = true := by
  refine ⟨by decide, ?_⟩
  intro src dst m h
  cases hl : findLabel m.data with
  | none => simp [findFoldername, hl]
  | some l =>
    obtain ⟨e, he, hsl⟩ := h l hl
    have hne : dst.allMailboxes.filter (fun mb => hasSepLabel l mb.data) ≠ [] :=
      List.ne_nil_of_mem (List.mem_filter.mpr ⟨he, hsl⟩)
    obtain ⟨x, hx⟩ := Option.isSome_iff_exists.mp (List.getLast?_isSome.mpr hne)
    simp [findFoldername, hl, hx]

/-- C10 witness: with the Gmail destination the `Sent` label does have a
matching entry, and the computation succeeds. -/
theorem findFoldername_none_without_match_witness :
    (findFoldername srcCourier dstGmail "INBOX.Sent").isSome = true :=
  findFoldername_none_without_match.2 srcCourier dstGmail "INBOX.Sent" (by
    intro l hl
    have h2 : findLabel ("INBOX.Sent").data = some "Sent" := by decide
    rw [h2] at hl
    have hls : l = "Sent" := (Option.some.inj hl).symm
    subst hls
    exact ⟨"(\\HasNoChildren \\Sent) \"/\" \"[Gmail]/Sent Mail\"",
      by decide, by decide⟩)

end SyncImap
